import Mathlib

/- Shallow embedding of the 3FR-to-EXR batch converter.

The repository holds two variants of the converter:
- the general variant (src/unnamed/part_000, batch_3fr_to_exr.cpp) with
  CLI flags --linear and --exposure, an inverse-sRGB stage and a
  Reinhard tone-map stage;
- the full-sensor variant (src/MAC/FULL_SENSOR/batch_3fr_to_exr.cpp)
  with no CLI options and a strict format check before packing.

Float arithmetic of the source is modelled over the real numbers. -/

/-- Encode-side sRGB gamma curve, from applySRGBCurve (part_000 lines
29-39). The input is clamped to [0,1]; at or below the threshold
0.0031308 the curve is linear with slope 12.92, above it the power
segment applies. -/
noncomputable def applySRGBCurve (linear : ℝ) : ℝ :=
  let l := max 0 (min 1 linear)
  if l ≤ 0.0031308 then 12.92 * l
  else 1.055 * l ^ ((1 : ℝ) / 2.4) - 0.055

/-- Inverse sRGB curve (linearization), from applySRGBInverse (part_000
lines 42-50). The input is clamped to [0,1]; at or below 0.04045 the
linear segment divides by 12.92, above it the power segment applies. -/
noncomputable def applySRGBInverse (srgb : ℝ) : ℝ :=
  let s := max 0 (min 1 srgb)
  if s ≤ 0.04045 then s / 12.92
  else ((s + 0.055) / 1.055) ^ (2.4 : ℝ)

/-- Reinhard tone map with exposure, from simpleToneMap (part_000 lines
53-59): the input is first multiplied by the exposure, then t maps to
t / (1 + t). -/
noncomputable def simpleToneMap (linear : ℝ) (exposure : ℝ) : ℝ :=
  let l := linear * exposure
  l / (1 + l)

/-- Per-channel transform chain of the general convert3frToExr
(part_000 lines 162-174, likewise 184-192, 215-227, 237-245): the
normalized sample passes through the inverse sRGB curve when useSRGB is
set, then through simpleToneMap exactly when the exposure differs
from 1. -/
noncomputable def transformChannel (useSRGB : Bool) (exposure : ℝ) (v : ℝ) : ℝ :=
  let l := if useSRGB then applySRGBInverse v else v
  if exposure ≠ 1 then simpleToneMap l exposure else l

/-- One output pixel: four float channels, as in the Imf Rgba struct. -/
structure Rgba where
  r : ℝ
  g : ℝ
  b : ℝ
  a : ℝ

/-- Pixel construction in the 16-bit branch of the general converter
(part_000 lines 149-200): the flat sample array is addressed at
(y * finalWidth + x) * colors, samples are normalized by 65535, and
with fewer than 3 colors the single channel is replicated into r, g, b;
alpha is always 1. -/
noncomputable def generalPixel16 (colors : ℕ) (data : ℕ → ℕ) (finalWidth : ℕ)
    (useSRGB : Bool) (exposure : ℝ) (y x : ℕ) : Rgba :=
  let idx := (y * finalWidth + x) * colors
  if 3 ≤ colors then
    ⟨transformChannel useSRGB exposure ((data idx : ℝ) / 65535),
     transformChannel useSRGB exposure ((data (idx + 1) : ℝ) / 65535),
     transformChannel useSRGB exposure ((data (idx + 2) : ℝ) / 65535),
     1⟩
  else
    let gray := transformChannel useSRGB exposure ((data idx : ℝ) / 65535)
    ⟨gray, gray, gray, 1⟩

/-- Pixel construction in the 8-bit fallback branch of the general
converter (part_000 lines 201-254): identical to the 16-bit branch
except that samples are normalized by 255. -/
noncomputable def generalPixel8 (colors : ℕ) (data : ℕ → ℕ) (finalWidth : ℕ)
    (useSRGB : Bool) (exposure : ℝ) (y x : ℕ) : Rgba :=
  let idx := (y * finalWidth + x) * colors
  if 3 ≤ colors then
    ⟨transformChannel useSRGB exposure ((data idx : ℝ) / 255),
     transformChannel useSRGB exposure ((data (idx + 1) : ℝ) / 255),
     transformChannel useSRGB exposure ((data (idx + 2) : ℝ) / 255),
     1⟩
  else
    let gray := transformChannel useSRGB exposure ((data idx : ℝ) / 255)
    ⟨gray, gray, gray, 1⟩

/-- Bit-depth dispatch of the general converter (part_000 lines 149 and
201): the 16-bit branch runs exactly when the bits field equals 16;
every other bit depth takes the 8-bit fallback branch. There is no
unsupported-format failure branch in this variant. -/
noncomputable def generalPixel (bits colors : ℕ) (data : ℕ → ℕ) (finalWidth : ℕ)
    (useSRGB : Bool) (exposure : ℝ) (y x : ℕ) : Rgba :=
  if bits = 16 then generalPixel16 colors data finalWidth useSRGB exposure y x
  else generalPixel8 colors data finalWidth useSRGB exposure y x

/-- Format dispatch of the full-sensor converter (MAC/FULL_SENSOR
batch_3fr_to_exr.cpp lines 110-145): 3-channel 16-bit data is normalized
by 65535, 3-channel 8-bit data by 255, and any other combination takes
the unsupported-format branch, which frees the buffer and returns
failure (modelled as none); some d means success with divisor d. -/
def fullSensorPixelStage (colors bits : ℕ) : Option ℕ :=
  if colors = 3 ∧ bits = 16 then some 65535
  else if colors = 3 ∧ bits = 8 then some 255
  else none

/-- Stages of one call to convert3frToExr, for ordering properties. -/
inductive ConvStep where
  | openFile
  | configureParams
  | geometryOverride
  | unpackRaw
  | dcrawProcess
  | makeMemImage
  | encodeExr
  deriving DecidableEq

/-- Success-path stage order of the general convert3frToExr (part_000
lines 61-271): open_file (line 65), unpack (line 76), then the
sensor-geometry override writing the raw dimensions and zero margins
into the session (lines 92-99), parameter configuration (lines
102-116), dcraw_process (line 119), dcraw_make_mem_image (line 126),
and the EXR encode block (lines 140-266). -/
def generalConvertSteps : List ConvStep :=
  [ConvStep.openFile, ConvStep.unpackRaw, ConvStep.geometryOverride,
   ConvStep.configureParams, ConvStep.dcrawProcess, ConvStep.makeMemImage,
   ConvStep.encodeExr]

/-- Success-path stage order of the full-sensor convert3frToExr
(MAC/FULL_SENSOR batch_3fr_to_exr.cpp lines 23-164): open_file (line
27), parameter configuration (lines 49-56), sensor-geometry override
(lines 65-70), unpack (line 73), dcraw_process (line 82),
dcraw_make_mem_image (line 91), EXR encode block (lines 101-158). -/
def fullSensorConvertSteps : List ConvStep :=
  [ConvStep.openFile, ConvStep.configureParams, ConvStep.geometryOverride,
   ConvStep.unpackRaw, ConvStep.dcrawProcess, ConvStep.makeMemImage,
   ConvStep.encodeExr]

/-- Filesystem actions that the encode stage could perform. The source
only ever creates the output file (the RgbaOutputFile constructor opens
it at outputPath) and completes the scanline write; removal and rename
actions exist in the vocabulary but are never emitted by the code. -/
inductive FsEffect where
  | createFile (path : String)
  | writeComplete (path : String)
  | removeFile (path : String)
  | renameFile (src dst : String)
  deriving DecidableEq

/-- True for the filesystem actions that could clear or replace a
partially written artifact. -/
def FsEffect.isCleanup : FsEffect → Bool
  | FsEffect.removeFile _ => true
  | FsEffect.renameFile _ _ => true
  | _ => false

/-- Outcome of the encode stage of one conversion: the boolean result
returned by convert3frToExr, whether dcraw_clear_mem ran on the decoded
buffer before returning, and the filesystem actions performed. -/
structure EncodeResult where
  success : Bool
  bufferReleased : Bool
  fs : List FsEffect

/-- Encode stage of the general convert3frToExr (part_000 lines
140-271). The RgbaOutputFile writer is constructed directly at
outputPath (line 142), which creates the file on disk before any pixel
is written; writeThrows abstracts an exception thrown by the encode
library during the write (line 258). The catch block (lines 262-266)
frees the decoded buffer and returns false without touching the created
file; the success path (lines 268-271) frees the buffer and returns
true. No branch removes or renames the output file. -/
def encodeStage (outputPath : String) (writeThrows : Bool) : EncodeResult :=
  if writeThrows then
    ⟨false, true, [FsEffect.createFile outputPath]⟩
  else
    ⟨true, true, [FsEffect.createFile outputPath, FsEffect.writeComplete outputPath]⟩

/-- Per-file loop of the batch main (part_000 lines 410-433, MAC file
lines 276-299): each discovered file is passed to the converter, in
discovery order; the loop continues whether the call succeeds or fails.
The trace records every converter invocation with its result. -/
def batchRun (convert : String → Bool) : List String → List (String × Bool)
  | [] => []
  | f :: rest => (f, convert f) :: batchRun convert rest

/-- Counters accumulated by the per-file loop: a true result increments
successCount, a false result increments failCount (part_000 lines
425-431). Returns (successCount, failCount). -/
def batchCounts (convert : String → Bool) : List String → ℕ × ℕ
  | [] => (0, 0)
  | f :: rest =>
    let c := batchCounts convert rest
    if convert f then (c.1 + 1, c.2) else (c.1, c.2 + 1)

/-- Exit status of the batch main after discovery (part_000 lines
393-396 and 441): an empty candidate list exits 0; otherwise the exit
status is 1 when failCount is positive and 0 when it is zero. -/
def batchMainExit (convert : String → Bool) (files : List String) : ℕ :=
  if files.isEmpty then 0
  else if 0 < (batchCounts convert files).2 then 1 else 0

/-- Option loop of the general main (part_000 lines 332-344), over the
arguments after the input directory. State: useSRGB and the exposure
token (std::stof is external, so the model keeps the raw token passed to
it). An argument equal to "--linear" clears useSRGB; an argument equal
to "--exposure" consumes the following token as the new exposure value,
and exits with status 1 (modelled as none) when no token follows; any
other argument falls through the if-else chain with no effect. -/
def parseArgs : List String → Bool → String → Option (Bool × String)
  | [], useSRGB, exposure => some (useSRGB, exposure)
  | arg :: rest, useSRGB, exposure =>
    if arg = "--linear" then parseArgs rest false exposure
    else if arg = "--exposure" then
      match rest with
      | [] => none
      | v :: rest2 => parseArgs rest2 useSRGB v
    else parseArgs rest useSRGB exposure

/-- Clamping to [0,1] is the identity on [0,1]. -/
theorem clamp01_eq (x : ℝ) (h0 : 0 ≤ x) (h1 : x ≤ 1) : max 0 (min 1 x) = x := by
  rw [min_eq_right h1, max_eq_right h0]

/-- Raising the power-segment exponent 1/2.4 to the 12th power yields
the 5th power of the base. -/
theorem rpow_inv24_pow12 (y : ℝ) (hy : 0 ≤ y) :
    (y ^ ((1 : ℝ) / 2.4)) ^ (12 : ℕ) = y ^ (5 : ℕ) := by
  rw [← Real.rpow_natCast (y ^ ((1 : ℝ) / 2.4)) 12, ← Real.rpow_mul hy,
    show (1 : ℝ) / 2.4 * ((12 : ℕ) : ℝ) = ((5 : ℕ) : ℝ) by push_cast; norm_num,
    Real.rpow_natCast]

/-- Raising the exponent 2.4 to the 5th power yields the 12th power of
the base. -/
theorem rpow24_pow5 (b : ℝ) (hb : 0 ≤ b) :
    (b ^ (2.4 : ℝ)) ^ (5 : ℕ) = b ^ (12 : ℕ) := by
  rw [← Real.rpow_natCast (b ^ (2.4 : ℝ)) 5, ← Real.rpow_mul hb,
    show (2.4 : ℝ) * ((5 : ℕ) : ℝ) = ((12 : ℕ) : ℝ) by push_cast; norm_num,
    Real.rpow_natCast]

/-- The exponents 2.4 and 1/2.4 cancel on nonnegative bases. -/
theorem rpow24_inv (b : ℝ) (hb : 0 ≤ b) :
    (b ^ (2.4 : ℝ)) ^ ((1 : ℝ) / 2.4) = b := by
  rw [← Real.rpow_mul hb, show (2.4 : ℝ) * (1 / 2.4) = 1 by norm_num,
    Real.rpow_one]

/-- The failCount accumulated by the loop is positive exactly when some
file in the list fails to convert. -/
theorem batchCounts_snd_pos (convert : String → Bool) (files : List String) :
    0 < (batchCounts convert files).2 ↔ ∃ f ∈ files, convert f = false := by
  induction files with
  | nil => simp [batchCounts]
  | cons f rest ih =>
    simp only [batchCounts]
    by_cases h : convert f
    · simp [h, ih]
    · simp [h]

/-- C1, counterexample: in the general variant the unpack stage precedes
the sensor-geometry override, so the override is not applied before the
decode step in every call to the single-image converter. -/
theorem C1_counterexample :
    ¬ (generalConvertSteps.indexOf ConvStep.geometryOverride <
       generalConvertSteps.indexOf ConvStep.unpackRaw) := by
  decide

/-- C1 (amended): in the full-sensor variant the sensor-geometry
override runs strictly after file open and strictly before unpack; in
the general variant it runs strictly after file open but strictly after
unpack, and strictly before the dcraw_process stage. -/
theorem C1_override_order :
    (fullSensorConvertSteps.indexOf ConvStep.openFile <
       fullSensorConvertSteps.indexOf ConvStep.geometryOverride ∧
     fullSensorConvertSteps.indexOf ConvStep.geometryOverride <
       fullSensorConvertSteps.indexOf ConvStep.unpackRaw) ∧
    (generalConvertSteps.indexOf ConvStep.openFile <
       generalConvertSteps.indexOf ConvStep.geometryOverride ∧
     generalConvertSteps.indexOf ConvStep.unpackRaw <
       generalConvertSteps.indexOf ConvStep.geometryOverride ∧
     generalConvertSteps.indexOf ConvStep.geometryOverride <
       generalConvertSteps.indexOf ConvStep.dcrawProcess) := by
  decide

/-- C2: when the encode library throws during the write, the converter
returns failure and frees the decoded buffer, but the output file that
the writer constructor created at the output path is neither removed nor
renamed by any branch, so a truncated artifact remains at the output
path on this failure branch. -/
theorem C2_encode_failure_artifact :
    (encodeStage "IMG.exr" true).success = false ∧
    (encodeStage "IMG.exr" true).bufferReleased = true ∧
    FsEffect.createFile "IMG.exr" ∈ (encodeStage "IMG.exr" true).fs ∧
    ∀ e ∈ (encodeStage "IMG.exr" true).fs, FsEffect.isCleanup e = false := by
  refine ⟨rfl, rfl, ?_, ?_⟩
  · simp [encodeStage]
  · intro e he
    simp [encodeStage] at he
    rw [he]
    rfl

/-- C4: the final exit status of the batch main is nonzero exactly when
some discovered file fails to convert; with zero candidates or with all
conversions succeeding it is zero. -/
theorem C4_exit_status (convert : String → Bool) (files : List String) :
    batchMainExit convert files ≠ 0 ↔ ∃ f ∈ files, convert f = false := by
  unfold batchMainExit
  cases files with
  | nil => simp
  | cons f rest =>
    rw [← batchCounts_snd_pos convert (f :: rest)]
    by_cases h : 0 < (batchCounts convert (f :: rest)).2
    · simp [h]
    · simp [h]

/-- C5: simpleToneMap multiplies the input by the exposure and returns
xm / (1 + xm), which lies in [0,1) for nonnegative input and exposure,
and is monotone in the input. -/
theorem C5_toneMap_range_mono (x m : ℝ) (hx : 0 ≤ x) (hm : 0 ≤ m) :
    simpleToneMap x m = (x * m) / (1 + x * m) ∧
    0 ≤ simpleToneMap x m ∧ simpleToneMap x m < 1 ∧
    ∀ y, x ≤ y → simpleToneMap x m ≤ simpleToneMap y m := by
  have ht : 0 ≤ x * m := mul_nonneg hx hm
  have hd : (0 : ℝ) < 1 + x * m := by linarith
  refine ⟨rfl, ?_, ?_, ?_⟩
  · exact div_nonneg ht (le_of_lt hd)
  · rw [simpleToneMap, div_lt_one hd]
    linarith
  · intro y hxy
    have ht2 : 0 ≤ y * m := mul_nonneg (le_trans hx hxy) hm
    have hd2 : (0 : ℝ) < 1 + y * m := by linarith
    rw [simpleToneMap, simpleToneMap]
    rw [div_le_div_iff₀ hd hd2]
    have : x * m ≤ y * m := mul_le_mul_of_nonneg_right hxy hm
    nlinarith

/-- C5 witness at x = 1, m = 1. -/
theorem C5_toneMap_range_mono_witness :
    simpleToneMap 1 1 = (1 * 1) / (1 + 1 * 1) ∧
    0 ≤ simpleToneMap 1 1 ∧ simpleToneMap 1 1 < 1 ∧
    ∀ y, (1 : ℝ) ≤ y → simpleToneMap 1 1 ≤ simpleToneMap y 1 :=
  C5_toneMap_range_mono 1 1 zero_le_one zero_le_one

/-- C6: with the neutral exposure 1 the tone-map stage is skipped and
the channel value passes through that stage unchanged; with any other
exposure the stage applies simpleToneMap. -/
theorem C6_neutral_exposure (s : Bool) (v : ℝ) :
    transformChannel s 1 v = (if s then applySRGBInverse v else v) ∧
    ∀ e : ℝ, e ≠ 1 →
      transformChannel s e v =
        simpleToneMap (if s then applySRGBInverse v else v) e := by
  constructor
  · simp [transformChannel]
  · intro e he
    simp [transformChannel, he]

/-- C6 witness at v = 1/2, with exposures 1 and 2. -/
theorem C6_neutral_exposure_witness :
    transformChannel false 1 (1 / 2) =
      (if false then applySRGBInverse (1 / 2) else (1 / 2 : ℝ)) ∧
    transformChannel false 2 (1 / 2) =
      simpleToneMap (if false then applySRGBInverse (1 / 2) else (1 / 2 : ℝ)) 2 :=
  ⟨(C6_neutral_exposure false (1 / 2)).1,
   (C6_neutral_exposure false (1 / 2)).2 2 (by norm_num)⟩

/-- C7: for a grayscale decoded buffer (fewer than 3 channels) every
pixel gets r = g = b equal to the transformed normalized single channel
and alpha equal to 1, in both bit-depth branches. -/
theorem C7_grayscale (bits colors : ℕ) (data : ℕ → ℕ) (W : ℕ) (s : Bool)
    (e : ℝ) (y x : ℕ) (h : colors < 3) :
    (generalPixel bits colors data W s e y x).r =
        transformChannel s e ((data ((y * W + x) * colors) : ℝ) /
          (if bits = 16 then 65535 else 255)) ∧
    (generalPixel bits colors data W s e y x).g =
        (generalPixel bits colors data W s e y x).r ∧
    (generalPixel bits colors data W s e y x).b =
        (generalPixel bits colors data W s e y x).r ∧
    (generalPixel bits colors data W s e y x).a = 1 := by
  have h3 : ¬ (3 ≤ colors) := by omega
  by_cases hb : bits = 16 <;>
    simp [generalPixel, generalPixel16, generalPixel8, hb, h3]

/-- C7 witness: a 1-channel 16-bit buffer of zeros. -/
theorem C7_grayscale_witness :
    (generalPixel 16 1 (fun _ => 0) 2 false 1 0 0).r =
        transformChannel false 1 (((0 : ℕ) : ℝ) /
          (if 16 = 16 then 65535 else 255)) ∧
    (generalPixel 16 1 (fun _ => 0) 2 false 1 0 0).g =
        (generalPixel 16 1 (fun _ => 0) 2 false 1 0 0).r ∧
    (generalPixel 16 1 (fun _ => 0) 2 false 1 0 0).b =
        (generalPixel 16 1 (fun _ => 0) 2 false 1 0 0).r ∧
    (generalPixel 16 1 (fun _ => 0) 2 false 1 0 0).a = 1 :=
  C7_grayscale 16 1 (fun _ => 0) 2 false 1 0 0 (by decide)

/-- C8: the batch loop invokes the converter exactly once per discovered
file, in discovery order, whether or not earlier files fail, and the two
counters always sum to the number of discovered files. -/
theorem C8_batch_isolation (convert : String → Bool) (files : List String) :
    (batchRun convert files).map Prod.fst = files ∧
    (batchCounts convert files).1 + (batchCounts convert files).2 =
      files.length := by
  induction files with
  | nil => simp [batchRun, batchCounts]
  | cons f rest ih =>
    refine ⟨by simp [batchRun, ih.1], ?_⟩
    have h2 := ih.2
    simp only [batchCounts, List.length_cons]
    by_cases h : convert f <;> simp [h] <;> omega

/-- C9, counterexample: the token "2.0" is neither "--linear" nor
"--exposure", yet it is not ignored: it is consumed as the value of the
preceding "--exposure" flag, and changing it changes the run. -/
theorem C9_counterexample :
    "2.0" ≠ "--linear" ∧ "2.0" ≠ "--exposure" ∧
    parseArgs ["--exposure", "2.0"] true "1.0" = some (true, "2.0") ∧
    parseArgs ["--exposure", "2.0"] true "1.0" ≠
      parseArgs ["--exposure", "3.0"] true "1.0" := by
  refine ⟨by decide, by decide, rfl, by decide⟩

/-- C9 (amended): a token that is neither "--linear" nor "--exposure"
and is examined in flag position is skipped with no usage error and no
effect on the parameters; a token immediately following "--exposure" is
consumed as the new exposure value; "--exposure" as the final argument
terminates with exit status 1 (none) before any processing. -/
theorem C9_arg_handling (s : Bool) (e : String) :
    (∀ t rest, t ≠ "--linear" → t ≠ "--exposure" →
      parseArgs (t :: rest) s e = parseArgs rest s e) ∧
    (∀ v rest, parseArgs ("--exposure" :: v :: rest) s e =
      parseArgs rest s v) ∧
    parseArgs ["--exposure"] s e = none := by
  refine ⟨?_, ?_, ?_⟩
  · intro t rest h1 h2
    rw [parseArgs.eq_def]
    simp [h1, h2]
  · intro v rest
    rw [parseArgs.eq_def]
    simp
  · rw [parseArgs.eq_def]
    simp

/-- C9 amended-claim witness on concrete argument lists. -/
theorem C9_arg_handling_witness :
    parseArgs ["FOO"] true "1.0" = parseArgs [] true "1.0" ∧
    parseArgs ["--exposure", "2.5"] true "1.0" = parseArgs [] true "2.5" ∧
    parseArgs ["--exposure"] true "1.0" = none :=
  ⟨(C9_arg_handling true "1.0").1 "FOO" [] (by decide) (by decide),
   (C9_arg_handling true "1.0").2.1 "2.5" [],
   (C9_arg_handling true "1.0").2.2⟩

/-- C10: the general converter has no unsupported-format failure branch:
any bit depth other than 16 takes the 8-bit branch, whose samples are
normalized by 255, for any channel count; the full-sensor converter
fails on every buffer that is not 3-channel 16-bit or 3-channel
8-bit. -/
theorem C10_format_dispatch :
    (∀ (bits colors : ℕ) (data : ℕ → ℕ) (W : ℕ) (s : Bool) (e : ℝ)
        (y x : ℕ), bits ≠ 16 →
      generalPixel bits colors data W s e y x =
        generalPixel8 colors data W s e y x) ∧
    (∀ colors bits : ℕ, colors ≠ 3 ∨ (bits ≠ 16 ∧ bits ≠ 8) →
      fullSensorPixelStage colors bits = none) := by
  constructor
  · intro bits colors data W s e y x h
    simp [generalPixel, h]
  · intro colors bits h
    rcases h with h | ⟨h1, h2⟩ <;> simp [fullSensorPixelStage, *]

/-- C10 witness: a 12-bit 4-channel buffer. -/
theorem C10_format_dispatch_witness :
    generalPixel 12 4 (fun _ => 0) 2 false 1 0 0 =
      generalPixel8 4 (fun _ => 0) 2 false 1 0 0 ∧
    fullSensorPixelStage 4 12 = none :=
  ⟨C10_format_dispatch.1 12 4 (fun _ => 0) 2 false 1 0 0 (by decide),
   C10_format_dispatch.2 4 12 (Or.inl (by decide))⟩

/-- C3: for every x in [0,1], composing the linearization with the
encode-side gamma curve round-trips to within 1e-4 of x. On the linear
segment and on the power segment the round trip is exact; only in the
sliver between the two knee thresholds (x between 12.92 * 0.0031308 and
0.04045) do the branches mismatch, and there the error stays below
1e-4. -/
theorem C3_srgb_roundtrip (x : ℝ) (h0 : 0 ≤ x) (h1 : x ≤ 1) :
    |applySRGBCurve (applySRGBInverse x) - x| ≤ 1e-4 := by
  rw [applySRGBInverse]
  simp only [clamp01_eq x h0 h1]
  by_cases hx : x ≤ 0.04045
  · rw [if_pos hx]
    have hy0 : (0 : ℝ) ≤ x / 12.92 := by positivity
    have hy1 : x / 12.92 ≤ 1 := by
      rw [div_le_one (by norm_num)]
      linarith
    rw [applySRGBCurve]
    simp only [clamp01_eq (x / 12.92) hy0 hy1]
    by_cases hyt : x / 12.92 ≤ 0.0031308
    · rw [if_pos hyt]
      have hc : (12.92 : ℝ) * (x / 12.92) = x := by
        rw [mul_comm, div_mul_cancel₀ x (by norm_num : (12.92 : ℝ) ≠ 0)]
      rw [hc, sub_self, abs_zero]
      norm_num
    · rw [if_neg hyt]
      push_neg at hyt
      have hlo : (0.0904 : ℝ) ≤ (x / 12.92) ^ ((1 : ℝ) / 2.4) := by
        have hp : (0.0904 : ℝ) ^ (12 : ℕ) ≤
            ((x / 12.92) ^ ((1 : ℝ) / 2.4)) ^ (12 : ℕ) := by
          rw [rpow_inv24_pow12 _ hy0]
          calc (0.0904 : ℝ) ^ (12 : ℕ) ≤ (0.0031308 : ℝ) ^ (5 : ℕ) := by
                norm_num
            _ ≤ (x / 12.92) ^ (5 : ℕ) :=
                pow_le_pow_left₀ (by norm_num) (le_of_lt hyt) 5
        exact le_of_pow_le_pow_left₀ (by norm_num) (Real.rpow_nonneg hy0 _) hp
      have hhi : (x / 12.92) ^ ((1 : ℝ) / 2.4) ≤ 0.0905 := by
        have hp : ((x / 12.92) ^ ((1 : ℝ) / 2.4)) ^ (12 : ℕ) ≤
            (0.0905 : ℝ) ^ (12 : ℕ) := by
          rw [rpow_inv24_pow12 _ hy0]
          calc (x / 12.92) ^ (5 : ℕ) ≤ (0.04045 / 12.92 : ℝ) ^ (5 : ℕ) := by
                gcongr
            _ ≤ (0.0905 : ℝ) ^ (12 : ℕ) := by norm_num
        exact le_of_pow_le_pow_left₀ (by norm_num) (by norm_num) hp
      have hgt : (0.0031308 : ℝ) * 12.92 < x := (lt_div_iff₀ (by norm_num)).mp hyt
      rw [abs_le]
      constructor
      · linarith
      · linarith
  · rw [if_neg hx]
    push_neg at hx
    have hb0 : (0 : ℝ) ≤ (x + 0.055) / 1.055 := by positivity
    have hb1 : (x + 0.055) / 1.055 ≤ 1 := by
      rw [div_le_one (by norm_num)]
      linarith
    have hz0 : (0 : ℝ) ≤ ((x + 0.055) / 1.055) ^ (2.4 : ℝ) :=
      Real.rpow_nonneg hb0 _
    have hz1 : ((x + 0.055) / 1.055) ^ (2.4 : ℝ) ≤ 1 :=
      Real.rpow_le_one hb0 hb1 (by norm_num)
    rw [applySRGBCurve]
    simp only [clamp01_eq _ hz0 hz1]
    have hzgt : ¬ (((x + 0.055) / 1.055) ^ (2.4 : ℝ) ≤ 0.0031308) := by
      push_neg
      have hblo : (1909 / 21100 : ℝ) < (x + 0.055) / 1.055 := by
        rw [lt_div_iff₀ (by norm_num : (0 : ℝ) < 1.055)]
        linarith
      have h1r : (1909 / 21100 : ℝ) ^ (2.4 : ℝ) <
          ((x + 0.055) / 1.055) ^ (2.4 : ℝ) :=
        Real.rpow_lt_rpow (by norm_num) hblo (by norm_num)
      have h2r : (0.0031308 : ℝ) ≤ (1909 / 21100 : ℝ) ^ (2.4 : ℝ) := by
        have hp : (0.0031308 : ℝ) ^ (5 : ℕ) ≤
            ((1909 / 21100 : ℝ) ^ (2.4 : ℝ)) ^ (5 : ℕ) := by
          rw [rpow24_pow5 _ (by norm_num)]
          norm_num
        exact le_of_pow_le_pow_left₀ (by norm_num)
          (Real.rpow_nonneg (by norm_num) _) hp
      linarith
    rw [if_neg hzgt, rpow24_inv _ hb0]
    have hc : (1.055 : ℝ) * ((x + 0.055) / 1.055) = x + 0.055 := by
      rw [mul_comm, div_mul_cancel₀ _ (by norm_num : (1.055 : ℝ) ≠ 0)]
    rw [hc, show x + 0.055 - 0.055 - x = 0 by ring, abs_zero]
    norm_num

/-- C3 witness at x = 0. -/
theorem C3_srgb_roundtrip_witness :
    |applySRGBCurve (applySRGBInverse 0) - 0| ≤ 1e-4 :=
  C3_srgb_roundtrip 0 le_rfl zero_le_one
